import Mathlib

/-!
Verification of the Ashby tooling service (`app.py`) against its
natural-language specification.  The Python source is shallowly embedded:
dictionaries with `.get` defaults become structures with `Option` fields,
the retry loop becomes structural recursion on the remaining attempt
count, the pagination `while` loop becomes fuel-indexed recursion, the
thread-pool fan-out becomes a fold over an arbitrary completion order,
and the SSE generator becomes a function producing the emitted event
list.
-/

namespace AshbyTool

/-- Upstream response envelope `{success, results, errors, moreDataAvailable,
nextCursor}`.  Fields read with `.get(key, default)` in the source are
`Option`s here (the reader applies the default); `moreDataAvailable` is the
truthiness of the stored value. -/
structure Envelope (ρ : Type) where
  success : Bool
  results : Option ρ
  errors : Option String
  moreDataAvailable : Bool
  nextCursor : Option String
deriving DecidableEq, Repr

/-- Python truthiness of an optional string: `None` and `''` are falsy. -/
def optTruthy : Option String → Bool
  | none => false
  | some s => s != ""

/-- The dictionary `{'success': False, 'errors': msg}` returned on the
failure paths of `ashby_request` (all other keys are absent). -/
def failEnv (msg : String) : Envelope ρ :=
  ⟨false, none, some msg, false, none⟩

/-- What one iteration of the `ashby_request` retry loop observes:
an HTTP 429 (with the parsed optional `Retry-After` header), an empty
body, a JSON decode error, a transport-level `RequestException`, or a
successfully parsed JSON body. -/
inductive AttemptOutcome (ρ : Type) where
  | rateLimited (retryAfter : Option Nat)
  | emptyBody
  | jsonError
  | transportError (msg : String)
  | parsed (env : Envelope ρ)
deriving DecidableEq

def AttemptOutcome.isRateLimited : AttemptOutcome ρ → Bool
  | .rateLimited _ => true
  | _ => false

/-- The sleep the 429 branch performs: `int(headers.get('Retry-After', 5))`
(junk value `0` on non-429 outcomes). -/
def AttemptOutcome.rateLimitWait : AttemptOutcome ρ → Nat
  | .rateLimited ra => ra.getD 5
  | _ => 0

/-- The body of `ashby_request`'s `for attempt in range(retries)` loop,
recursing on the number of loop iterations still to run (`continue`
advances `attempt`, so every branch that retries consumes an iteration,
the 429 branch included).  Returns the value handed to the caller and
the list of sleep durations performed, in order.  Falling off the loop
returns `{'success': False, 'errors': 'Max retries exceeded'}`. -/
def ashbyAttempts (outcomes : Nat → AttemptOutcome ρ) : Nat → Nat → Envelope ρ × List Nat
  | _, 0 => (failEnv "Max retries exceeded", [])
  | attempt, remaining + 1 =>
    match outcomes attempt with
    | .rateLimited ra =>
      let rest := ashbyAttempts outcomes (attempt + 1) remaining
      (rest.1, ra.getD 5 :: rest.2)
    | .emptyBody =>
      if 0 < remaining then
        let rest := ashbyAttempts outcomes (attempt + 1) remaining
        (rest.1, 2 :: rest.2)
      else (failEnv "Empty response from API", [])
    | .jsonError =>
      if 0 < remaining then
        let rest := ashbyAttempts outcomes (attempt + 1) remaining
        (rest.1, 2 :: rest.2)
      else (failEnv "Invalid JSON response from API", [])
    | .transportError e =>
      if 0 < remaining then
        let rest := ashbyAttempts outcomes (attempt + 1) remaining
        (rest.1, 2 :: rest.2)
      else (failEnv ("Request failed: " ++ e), [])
    | .parsed env => (env, [])

/-- `ashby_request(endpoint, data, retries)`: run the attempt loop from
attempt `0` with `retries` iterations available.  The network is
abstracted as the oracle `outcomes`, giving what attempt `i` observes. -/
def ashby_request (retries : Nat) (outcomes : Nat → AttemptOutcome ρ) :
    Envelope ρ × List Nat :=
  ashbyAttempts outcomes 0 retries

theorem isRateLimited_iff (o : AttemptOutcome ρ) :
    o.isRateLimited = true ↔ ∃ ra, o = .rateLimited ra := by
  cases o <;> simp [AttemptOutcome.isRateLimited]

/-- A successful parsed envelope used in concrete runs. -/
def okEnv : Envelope (List Nat) := ⟨true, some [], none, false, none⟩

/-- Outcome oracle for the C1 counterexample: the first attempt is rate
limited (`Retry-After: 3`), every later attempt parses successfully. -/
def c1Outcomes : Nat → AttemptOutcome (List Nat)
  | 0 => .rateLimited (some 3)
  | _ + 1 => .parsed okEnv

/-- C1 counterexample: with `retries = 1`, a single rate-limit response
exhausts the whole budget and the call returns
`Failure "Max retries exceeded"` (after sleeping the advertised 3
time-units), whereas deleting that 429 from the stream makes the very
same budget succeed — so a 429 does consume a retry slot, refuting the
claim that the remaining non-rate-limit attempt count stays `R`. -/
theorem c1_rate_limit_consumes_budget_cex :
    ashby_request 1 c1Outcomes = (failEnv "Max retries exceeded", [3]) ∧
      ashby_request 1 (fun n => c1Outcomes (n + 1)) = (okEnv, []) :=
  ⟨rfl, rfl⟩

/-- C1 (amended): on `k` consecutive rate-limit responses the client
sleeps the `Retry-After` duration of each (defaulting to 5 time-units
when the header is absent) and reissues the request, but each 429
consumes a retry slot: the run is the run that starts `k` attempts
later with only `remaining - k` iterations left, with the rate-limit
sleeps prepended.  In particular `remaining` consecutive 429s exhaust
the budget and yield `Failure "Max retries exceeded"`. -/
theorem c1_rate_limit_sleeps_and_consumes (outcomes : Nat → AttemptOutcome ρ)
    (attempt remaining k : Nat) (hk : k ≤ remaining)
    (hrl : ∀ i, i < k → (outcomes (attempt + i)).isRateLimited = true) :
    ashbyAttempts outcomes attempt remaining =
      ((ashbyAttempts outcomes (attempt + k) (remaining - k)).1,
        (List.range k).map (fun i => (outcomes (attempt + i)).rateLimitWait)
          ++ (ashbyAttempts outcomes (attempt + k) (remaining - k)).2) := by
  induction k generalizing attempt remaining with
  | zero => simp
  | succ k ih =>
    cases remaining with
    | zero => omega
    | succ r =>
      obtain ⟨ra, hra⟩ := (isRateLimited_iff (outcomes attempt)).1
        (by simpa using hrl 0 (Nat.succ_pos k))
      have step : ashbyAttempts outcomes attempt (r + 1) =
          ((ashbyAttempts outcomes (attempt + 1) r).1,
            ra.getD 5 :: (ashbyAttempts outcomes (attempt + 1) r).2) := by
        simp [ashbyAttempts, hra]
      have ih' := ih (attempt + 1) r (by omega)
        (fun i hi => by
          have := hrl (i + 1) (by omega)
          simpa [Nat.add_assoc, Nat.add_comm 1 i] using this)
      rw [step, ih']
      have hsh : attempt + 1 + k = attempt + (k + 1) := by omega
      have hrm : r - k = r + 1 - (k + 1) := by omega
      rw [List.range_succ_eq_map]
      simp only [List.map_cons, List.map_map, hsh, hrm]
      have hhead : (outcomes (attempt + 0)).rateLimitWait = ra.getD 5 := by
        simp [hra, AttemptOutcome.rateLimitWait]
      have hmap :
          List.map ((fun i => (outcomes (attempt + i)).rateLimitWait) ∘ Nat.succ)
              (List.range k)
            = List.map (fun i => (outcomes (attempt + 1 + i)).rateLimitWait)
              (List.range k) := by
        apply List.map_congr_left
        intro i _
        simp only [Function.comp]
        congr 2
        omega
      rw [hhead, hmap]
      simp [List.cons_append]

/-- Outcome oracle for the C1 witness run: two rate limits (one with
`Retry-After: 7`, one without the header), then a parsed success. -/
def c1WitnessOutcomes : Nat → AttemptOutcome (List Nat)
  | 0 => .rateLimited (some 7)
  | 1 => .rateLimited none
  | _ + 2 => .parsed okEnv

theorem c1_rate_limit_sleeps_and_consumes_witness :
    ashbyAttempts c1WitnessOutcomes 0 3 =
      ((ashbyAttempts c1WitnessOutcomes (0 + 2) (3 - 2)).1,
        (List.range 2).map (fun i => (c1WitnessOutcomes (0 + i)).rateLimitWait)
          ++ (ashbyAttempts c1WitnessOutcomes (0 + 2) (3 - 2)).2) :=
  c1_rate_limit_sleeps_and_consumes c1WitnessOutcomes 0 3 2 (by decide)
    (by decide)

/-- C8: a response that parses into a well-formed envelope — in
particular one with `success: false`, a permanent upstream failure — is
returned to the caller by the very attempt that received it: no further
retry is attempted and no sleep is performed, however many retry slots
remain. -/
theorem c8_permanent_failure_returned_immediately
    (outcomes : Nat → AttemptOutcome ρ) (attempt remaining : Nat)
    (env : Envelope ρ) (hout : outcomes attempt = .parsed env)
    (hfail : env.success = false) :
    ashbyAttempts outcomes attempt (remaining + 1) = (env, []) := by
  simp [ashbyAttempts, hout]

/-- A parsed permanent-failure envelope used in the C8 witness. -/
def permFailEnv : Envelope (List Nat) := ⟨false, none, some "boom", false, none⟩

def c8Outcomes : Nat → AttemptOutcome (List Nat)
  | _ => .parsed permFailEnv

theorem c8_permanent_failure_returned_immediately_witness :
    ashbyAttempts c8Outcomes 0 (2 + 1) = (permFailEnv, []) :=
  c8_permanent_failure_returned_immediately c8Outcomes 0 2 permFailEnv rfl rfl

/-! ### Paginated fetcher (`ashby_request_paginated`) -/

/-- The continuation condition of the pagination `while` loop:
`result.get('moreDataAvailable') and result.get('nextCursor')`
(the cursor must be truthy, i.e. present and non-empty). -/
def continuesPage (r : Envelope (List α)) : Bool :=
  r.moreDataAvailable && optTruthy r.nextCursor

/-- The `{'success': True, 'results': all_results}` dictionary the loop
returns on normal exit. -/
def successEnv (rs : List α) : Envelope (List α) :=
  ⟨true, some rs, none, false, none⟩

/-- The `while True` loop of `ashby_request_paginated`, as fuel-indexed
recursion: the upstream is abstracted as a function from the injected
cursor (absent on the first call) to the envelope of that page.  `none`
means the loop did not finish within `fuel` iterations. -/
def fetchAllGo (upstream : Option String → Envelope (List α)) :
    Nat → Option String → List α → Option (Envelope (List α))
  | 0, _, _ => none
  | fuel + 1, cursor, acc =>
    let r := upstream cursor
    if r.success then
      let acc' := acc ++ r.results.getD []
      if continuesPage r then fetchAllGo upstream fuel r.nextCursor acc'
      else some (successEnv acc')
    else some r

/-- `ashby_request_paginated(endpoint, data)`: start the loop with no
cursor and an empty accumulator. -/
def ashby_request_paginated (upstream : Option String → Envelope (List α))
    (fuel : Nat) : Option (Envelope (List α)) :=
  fetchAllGo upstream fuel none []

/-- The pages the loop actually receives (in order) on a run starting
from `cursor`: the same traversal as `fetchAllGo`, recording each
successful page; a failing page ends the run and is not a result page. -/
def pagesVisited (upstream : Option String → Envelope (List α)) :
    Nat → Option String → List (Envelope (List α))
  | 0, _ => []
  | fuel + 1, cursor =>
    let r := upstream cursor
    if r.success then
      if continuesPage r then r :: pagesVisited upstream fuel r.nextCursor
      else [r]
    else []

/-- C6: (i) the page whose RPC result is a failure envelope is returned
immediately and verbatim, whatever partial results had been accumulated;
(ii) a successful aggregate's record sequence is exactly the
concatenation, in the order received, of the `results` of the pages
visited; (iii) the same, stated for the top-level call. -/
theorem c6_pagination_failfast_and_concat
    (upstream : Option String → Envelope (List α)) :
    (∀ fuel cursor acc, (upstream cursor).success = false →
        fetchAllGo upstream (fuel + 1) cursor acc = some (upstream cursor)) ∧
    (∀ fuel cursor acc env, fetchAllGo upstream fuel cursor acc = some env →
        env.success = true →
        env.results = some (acc ++
          ((pagesVisited upstream fuel cursor).map
            (fun p => p.results.getD [])).flatten)) ∧
    (∀ fuel env, ashby_request_paginated upstream fuel = some env →
        env.success = true →
        env.results = some
          (((pagesVisited upstream fuel none).map
            (fun p => p.results.getD [])).flatten)) := by
  have core : ∀ fuel cursor acc env,
      fetchAllGo upstream fuel cursor acc = some env → env.success = true →
      env.results = some (acc ++
        ((pagesVisited upstream fuel cursor).map
          (fun p => p.results.getD [])).flatten) := by
    intro fuel
    induction fuel with
    | zero => intro cursor acc env h; simp [fetchAllGo] at h
    | succ fuel ih =>
      intro cursor acc env h hs
      by_cases hsu : (upstream cursor).success
      · by_cases hc : continuesPage (upstream cursor)
        · rw [fetchAllGo] at h
          simp only [hsu, if_true, hc] at h
          have := ih _ _ _ h hs
          rw [this]
          rw [pagesVisited]
          simp [hsu, hc, List.append_assoc]
        · rw [fetchAllGo] at h
          simp only [hsu, if_true, hc, if_false] at h
          have henv : env = successEnv (acc ++ (upstream cursor).results.getD []) := by
            simpa using h.symm
          subst henv
          rw [pagesVisited]
          simp [hsu, hc, successEnv]
      · rw [fetchAllGo] at h
        simp only [hsu] at h
        have henv : env = upstream cursor := by simpa using h.symm
        rw [henv] at hs
        simp [hs] at hsu
  refine ⟨?_, core, ?_⟩
  · intro fuel cursor acc hfail
    rw [fetchAllGo]
    simp [hfail]
  · intro fuel env h hs
    simpa using core fuel none [] env h hs

/-- A concrete two-page upstream for the C6 witness: the first page
carries `[10]` and points at cursor `"c1"`, the second carries `[20]`
and stops; the failing upstream returns an error envelope at once. -/
def twoPageUp : Option String → Envelope (List Nat)
  | none => ⟨true, some [10], none, true, some "c1"⟩
  | some _ => ⟨true, some [20], none, false, none⟩

def failPageUp : Option String → Envelope (List Nat)
  | _ => ⟨false, none, some "bad page", false, none⟩

theorem c6_pagination_failfast_and_concat_witness :
    fetchAllGo failPageUp (0 + 1) none [99] = some (failPageUp none) ∧
      (successEnv [10, 20] : Envelope (List Nat)).results =
        some (([] : List Nat) ++
          ((pagesVisited twoPageUp 5 none).map
            (fun p => p.results.getD [])).flatten) :=
  ⟨(c6_pagination_failfast_and_concat failPageUp).1 0 none [99] rfl,
    (c6_pagination_failfast_and_concat twoPageUp).2.1 5 none []
      (successEnv [10, 20]) rfl rfl⟩

/-- One step of the cursor chain the loop follows: the cursor the
`(k+1)`-th request would inject, starting from `cursor`. -/
def chainCursor (upstream : Option String → Envelope (List α)) :
    Nat → Option String → Option String
  | 0, c => c
  | k + 1, c => chainCursor upstream k (upstream c).nextCursor

/-- The first `k` responses along the cursor chain, regardless of their
flags — for a loop that keeps going these are exactly the pages
received. -/
def chainPages (upstream : Option String → Envelope (List α)) :
    Nat → Option String → List (Envelope (List α))
  | 0, _ => []
  | k + 1, c => upstream c :: chainPages upstream k (upstream c).nextCursor

/-- A page on which the loop stops: a failure envelope, or one lacking
the more-data flag or a truthy cursor. -/
def stopsPage (r : Envelope (List α)) : Bool :=
  !r.success || !continuesPage r

/-- The upstream that refutes C7's iteration bound: every page is
successful, claims more data, and returns the same cursor `"c"`. -/
def cyclicUp : Option String → Envelope (List Nat) :=
  fun _ => ⟨true, some [0], none, true, some "c"⟩

theorem cyclicUp_never_finishes :
    ∀ fuel cursor acc, fetchAllGo cyclicUp fuel cursor acc = none := by
  intro fuel
  induction fuel with
  | zero => intro cursor acc; rfl
  | succ fuel ih =>
    intro cursor acc
    rw [fetchAllGo]
    simp only [cyclicUp, continuesPage, optTruthy]
    exact ih _ _

/-- C7 counterexample: against `cyclicUp` only the single cursor `"c"`
is ever returned (the three pages received in three iterations all
carry it), yet the fetch has not terminated within three iterations —
so the loop does not terminate within a number of iterations bounded by
the number of distinct cursors (here 1); indeed it never terminates. -/
theorem c7_distinct_cursor_bound_cex :
    ((chainPages cyclicUp 3 none).map Envelope.nextCursor
        = List.replicate 3 (some "c")) ∧
      fetchAllGo cyclicUp 3 none [] = none :=
  ⟨rfl, cyclicUp_never_finishes 3 none []⟩

/-- C7 (amended): the loop continues to a further page only when the
response has both a truthy `moreDataAvailable` flag and a truthy
`nextCursor` — a successful page lacking either ends the loop at that
iteration with the aggregate built so far — and the fetch terminates
within `k + 1` iterations whenever the `(k+1)`-th response along the
cursor chain is a stopping page (a failure, or one lacking the flag or
cursor).  No bound in terms of the number of distinct cursors exists:
an upstream repeating one cursor keeps the loop running forever
(`c7_distinct_cursor_bound_cex`). -/
theorem c7_stop_condition_and_termination
    (upstream : Option String → Envelope (List α)) :
    (∀ fuel cursor acc, (upstream cursor).success = true →
        continuesPage (upstream cursor) = false →
        fetchAllGo upstream (fuel + 1) cursor acc =
          some (successEnv (acc ++ (upstream cursor).results.getD []))) ∧
    (∀ k cursor acc, stopsPage (upstream (chainCursor upstream k cursor)) = true →
        (fetchAllGo upstream (k + 1) cursor acc).isSome = true) := by
  constructor
  · intro fuel cursor acc hsu hc
    rw [fetchAllGo]
    simp [hsu, hc]
  · intro k
    induction k with
    | zero =>
      intro cursor acc hstop
      rw [fetchAllGo]
      simp only [chainCursor] at hstop
      rw [stopsPage] at hstop
      by_cases hsu : (upstream cursor).success
      · have hc : continuesPage (upstream cursor) = false := by
          simp [hsu] at hstop; simpa using hstop
        simp [hsu, hc]
      · simp [hsu]
    | succ k ih =>
      intro cursor acc hstop
      rw [fetchAllGo]
      by_cases hsu : (upstream cursor).success
      · by_cases hc : continuesPage (upstream cursor)
        · simp only [hsu, if_true, hc]
          exact ih (upstream cursor).nextCursor _ (by
            simpa [chainCursor] using hstop)
        · simp [hsu, hc]
      · simp [hsu]

theorem c7_stop_condition_and_termination_witness :
    (fetchAllGo twoPageUp (3 + 1) (some "c1") [10] =
        some (successEnv ([10] ++ (twoPageUp (some "c1")).results.getD []))) ∧
      (fetchAllGo twoPageUp (1 + 1) none []).isSome = true :=
  ⟨(c7_stop_condition_and_termination twoPageUp).1 3 (some "c1") [10] rfl rfl,
    (c7_stop_condition_and_termination twoPageUp).2 1 none [] rfl⟩

/-! ### Fan-out enrichment (`get_candidates`, lines 261-286) -/

/-- What `future.result()` for one lookup task does: return an optional
handle (`fetch_candidate_resume_handle` returns `None` or a handle), or
raise — the `except` branch, which logs and writes nothing. -/
inductive TaskOutcome (H : Type) where
  | ok (h : Option H)
  | exn
deriving DecidableEq

/-- Processing one completed future of index `idx`: on a normal result
the handle is written into the pre-sized output at the task's original
index (`candidates[idx]['resumeFileHandle'] = resume_handle`); on an
exception the slot is left untouched. -/
def enrichStep (lookup : ι → TaskOutcome H) (ids : List ι)
    (acc : List (Option H)) (idx : Nat) : List (Option H) :=
  match ids[idx]? with
  | some cid =>
    match lookup cid with
    | .ok h => acc.set idx h
    | .exn => acc
  | none => acc

/-- The `as_completed` loop over the resume-handle slots: `order` is the
completion order of the futures (a permutation of the task indices under
any scheduling); the output starts as the pre-sized all-`None` list the
candidate records are built with. -/
def runEnrichment (lookup : ι → TaskOutcome H) (ids : List ι)
    (order : List Nat) : List (Option H) :=
  order.foldl (enrichStep lookup ids) (List.replicate ids.length none)

/-- The handle the enrichment owes position `i`: the lookup result for
input identifier `i`, with a raised lookup giving a null handle. -/
def expectedHandle (lookup : ι → TaskOutcome H) (ids : List ι) (i : Nat) :
    Option H :=
  match ids[i]? with
  | some cid =>
    match lookup cid with
    | .ok h => h
    | .exn => none
  | none => none

theorem enrichStep_length (lookup : ι → TaskOutcome H) (ids : List ι)
    (acc : List (Option H)) (idx : Nat) :
    (enrichStep lookup ids acc idx).length = acc.length := by
  cases hg : ids[idx]? with
  | none => simp [enrichStep, hg]
  | some cid => cases hl : lookup cid <;> simp [enrichStep, hg, hl]

theorem enrichFold_length (lookup : ι → TaskOutcome H) (ids : List ι)
    (order : List Nat) (acc : List (Option H)) :
    (order.foldl (enrichStep lookup ids) acc).length = acc.length := by
  induction order generalizing acc with
  | nil => rfl
  | cons j rest ih => simp [List.foldl_cons, ih, enrichStep_length]

theorem enrichStep_get_ne (lookup : ι → TaskOutcome H) (ids : List ι)
    (acc : List (Option H)) (idx i : Nat) (h : i ≠ idx) :
    (enrichStep lookup ids acc idx)[i]? = acc[i]? := by
  cases hg : ids[idx]? with
  | none => simp [enrichStep, hg]
  | some cid =>
    cases hl : lookup cid with
    | ok hh => simp [enrichStep, hg, hl, List.getElem?_set_ne (Ne.symm h)]
    | exn => simp [enrichStep, hg, hl]

theorem replicate_get_lt (n i : Nat) (h : i < n) :
    (List.replicate n (none : Option H))[i]? = some none :=
  List.getElem?_replicate_of_lt h

theorem enrichFold_get (lookup : ι → TaskOutcome H) (ids : List ι) :
    ∀ (order : List Nat) (acc : List (Option H)), order.Nodup →
      (∀ j ∈ order, acc[j]? = some none) →
      ∀ i, i < acc.length →
        (order.foldl (enrichStep lookup ids) acc)[i]? =
          if i ∈ order then some (expectedHandle lookup ids i)
          else acc[i]? := by
  intro order
  induction order with
  | nil => intro acc _ _ i _; simp
  | cons j rest ih =>
    intro acc hnd hnone i hi
    have hjr : j ∉ rest := (List.nodup_cons.1 hnd).1
    have hrest : rest.Nodup := (List.nodup_cons.1 hnd).2
    have hjn : acc[j]? = some none := hnone j (List.mem_cons_self j rest)
    have hjlt : j < acc.length := by
      by_contra hc
      have hn : acc[j]? = none := List.getElem?_eq_none (by omega)
      rw [hn] at hjn
      exact Option.noConfusion hjn
    have hnone' : ∀ m ∈ rest, (enrichStep lookup ids acc j)[m]? = some none := by
      intro m hm
      have hmj : m ≠ j := fun hmj => hjr (hmj ▸ hm)
      rw [enrichStep_get_ne lookup ids acc j m hmj]
      exact hnone m (List.mem_cons_of_mem j hm)
    have hi' : i < (enrichStep lookup ids acc j).length := by
      rw [enrichStep_length]; exact hi
    rw [List.foldl_cons]
    rw [ih (enrichStep lookup ids acc j) hrest hnone' i hi']
    by_cases hir : i ∈ rest
    · simp [hir, List.mem_cons]
    · by_cases hij : i = j
      · subst hij
        simp only [hir, if_false, List.mem_cons, true_or, if_true]
        cases hg : ids[i]? with
        | none => simpa [enrichStep, expectedHandle, hg] using hjn
        | some cid =>
          cases hl : lookup cid with
          | ok hh =>
            simp [enrichStep, expectedHandle, hg, hl,
              List.getElem?_set_eq_of_lt _ hjlt]
          | exn => simpa [enrichStep, expectedHandle, hg, hl] using hjn
      · have : ¬ i ∈ j :: rest := by simp [List.mem_cons, hij, hir]
        simp only [hir, if_false, this, if_false]
        exact enrichStep_get_ne lookup ids acc j i hij

/-- C3: for any completion order that is a permutation of the task
indices, the enrichment output has length `N`, its entry at position `i`
is exactly the lookup result for input identifier `i` (a raised lookup
leaving a null handle at that index), and the whole output is
independent of the completion order — any two schedulings produce the
same output sequence, and the batch always completes. -/
theorem c3_enrichment_index_stable (lookup : ι → TaskOutcome H)
    (ids : List ι) (order : List Nat)
    (hperm : order.Perm (List.range ids.length)) :
    (runEnrichment lookup ids order).length = ids.length ∧
    (∀ i, i < ids.length →
      (runEnrichment lookup ids order)[i]? =
        some (expectedHandle lookup ids i)) ∧
    (∀ (i : Nat) (cid : ι), ids[i]? = some cid → lookup cid = .exn →
      (runEnrichment lookup ids order)[i]? = some none) ∧
    (∀ order', order'.Perm (List.range ids.length) →
      runEnrichment lookup ids order' = runEnrichment lookup ids order) := by
  have hnd : order.Nodup := hperm.nodup_iff.2 (List.nodup_range _)
  have hmem : ∀ i, i ∈ order ↔ i < ids.length := by
    intro i
    rw [hperm.mem_iff, List.mem_range]
  have hget : ∀ i, i < ids.length →
      (runEnrichment lookup ids order)[i]? =
        some (expectedHandle lookup ids i) := by
    intro i hi
    unfold runEnrichment
    rw [enrichFold_get lookup ids order (List.replicate ids.length none) hnd
      (fun j hj => replicate_get_lt _ _ ((hmem j).1 hj)) i (by simpa using hi)]
    simp [(hmem i).2 hi]
  refine ⟨?_, hget, ?_, ?_⟩
  · unfold runEnrichment
    rw [enrichFold_length]
    simp
  · intro i cid hgid hexn
    have hi : i < ids.length := by
      by_contra hc
      have hn : ids[i]? = none := List.getElem?_eq_none (by omega)
      rw [hn] at hgid
      exact Option.noConfusion hgid
    rw [hget i hi]
    simp [expectedHandle, hgid, hexn]
  · intro order' hperm'
    have hnd' : order'.Nodup := hperm'.nodup_iff.2 (List.nodup_range _)
    have hget' : ∀ i, i < ids.length →
        (runEnrichment lookup ids order')[i]? =
          some (expectedHandle lookup ids i) := by
      intro i hi
      unfold runEnrichment
      rw [enrichFold_get lookup ids order' (List.replicate ids.length none) hnd'
        (fun j hj => replicate_get_lt _ _
          (List.mem_range.1 (hperm'.mem_iff.1 hj))) i (by simpa using hi)]
      simp [hperm'.mem_iff.2 (List.mem_range.2 hi)]
    apply List.ext_getElem?
    intro i
    by_cases hi : i < ids.length
    · rw [hget i hi, hget' i hi]
    · have hl : (runEnrichment lookup ids order).length = ids.length := by
        unfold runEnrichment; rw [enrichFold_length]; simp
      have hl' : (runEnrichment lookup ids order').length = ids.length := by
        unfold runEnrichment; rw [enrichFold_length]; simp
      rw [List.getElem?_eq_none (by omega), List.getElem?_eq_none (by omega)]

/-- Lookup table for the C3 witness: identifier `"a"` finds handle `1`,
`"b"` raises, `"c"` finds no handle. -/
def c3Lookup : String → TaskOutcome Nat
  | "a" => .ok (some 1)
  | "b" => .exn
  | _ => .ok none

theorem c3_enrichment_index_stable_witness :
    (runEnrichment c3Lookup ["a", "b", "c"] [2, 0, 1])[0]? =
      some (expectedHandle c3Lookup ["a", "b", "c"] 0) :=
  (c3_enrichment_index_stable c3Lookup ["a", "b", "c"] [2, 0, 1]
    (by decide)).2.1 0 (by decide)

/-! ### SSE event stream of `get_candidates` (lines 218-288) -/

/-- One application record from `application.list`:
`currentInterviewStage.id`, `candidate.id`, and the remaining fields the
candidate row copies verbatim (name, email, application id, stage
title, applied-at), bundled opaquely as `base`. -/
structure AppRec (β : Type) where
  stageId : Option String
  candidateId : Option String
  base : β
deriving DecidableEq

/-- A row of the `candidates` list the generator builds:
`{'id': ..., ..., 'resumeFileHandle': None}` initially. -/
structure Candidate (β H : Type) where
  id : Option String
  base : β
  resumeFileHandle : Option H
deriving DecidableEq

/-- One frame of the event stream: the `type` discriminator plus the
type-specific fields of the serialized JSON payload. -/
inductive SseEvent (β H : Type) where
  | status (msg : String)
  | progress (current total percent : Nat)
  | error (msg : String)
  | complete (candidates : List (Candidate β H))
deriving DecidableEq

def SseEvent.isTerminal : SseEvent β H → Bool
  | .complete _ => true
  | .error _ => true
  | _ => false

def SseEvent.isProgress : SseEvent β H → Bool
  | .progress _ _ _ => true
  | _ => false

/-- The `current` field of a progress frame (junk `0` otherwise). -/
def SseEvent.currentOf : SseEvent β H → Nat
  | .progress c _ _ => c
  | _ => 0

/-- The client-side stage filter:
`app.get('currentInterviewStage', {}).get('id') == stage_id`, applied
only when `stage_id` is truthy. -/
def filteredApps (allApps : List (AppRec β)) (stageId : Option String) :
    List (AppRec β) :=
  if optTruthy stageId then
    allApps.filter (fun a => a.stageId == stageId)
  else allApps

/-- The pre-enrichment candidate rows (`resumeFileHandle` pre-set to
`None`). -/
def baseCandidates (apps : List (AppRec β)) : List (Candidate β H) :=
  apps.map (fun a => ⟨a.candidateId, a.base, none⟩)

/-- `candidate_ids`: one entry per filtered application (a missing
candidate id is appended as `None`). -/
def candidateIdsOf (apps : List (AppRec β)) : List (Option String) :=
  apps.map (fun a => a.candidateId)

/-- Processing one completed resume-lookup future: write the handle into
the candidate row at the future's original index; an exception leaves
the row untouched. -/
def completeOne (lookup : Option String → TaskOutcome H)
    (ids : List (Option String)) (acc : List (Candidate β H)) (idx : Nat) :
    List (Candidate β H) :=
  match ids[idx]? with
  | some cid =>
    match lookup cid with
    | .ok h =>
      match acc[idx]? with
      | some c => acc.set idx { c with resumeFileHandle := h }
      | none => acc
    | .exn => acc
  | none => acc

/-- The progress frames the fan-out loop emits: the shared counter runs
`1..total`, and a frame is pushed when it crosses a multiple of 10 or
reaches the total, with `percent = int(current / total * 100)`. -/
def progressEvents (total : Nat) : List (SseEvent β H) :=
  (List.range total).filterMap (fun j =>
    if (j + 1) % 10 == 0 || (j + 1) == total then
      some (.progress (j + 1) total (100 * (j + 1) / total))
    else none)

/-- The full frame sequence `generate()` pushes, in emission order.
`appsResult` is what `ashby_request_paginated('application.list', ...)`
returned, `lookup` the per-identifier outcome of the resume lookups,
and `order` the completion order of the futures. -/
def generateEvents (appsResult : Envelope (List (AppRec β)))
    (stageId : Option String) (lookup : Option String → TaskOutcome H)
    (order : List Nat) : List (SseEvent β H) :=
  .status "Fetching applications..." ::
  if appsResult.success then
    .status ("Found " ++ toString (appsResult.results.getD []).length
        ++ " applications. Filtering by stage...") ::
    .status ("Found " ++ toString (filteredApps (appsResult.results.getD []) stageId).length
        ++ " candidates in selected stage. Fetching resume info...") ::
    if (candidateIdsOf (filteredApps (appsResult.results.getD []) stageId)).isEmpty then
      [.complete (baseCandidates (filteredApps (appsResult.results.getD []) stageId))]
    else
      progressEvents (filteredApps (appsResult.results.getD []) stageId).length ++
        [.complete (order.foldl
          (completeOne lookup (candidateIdsOf (filteredApps (appsResult.results.getD []) stageId)))
          (baseCandidates (filteredApps (appsResult.results.getD []) stageId)))]
  else [.error "Failed to get applications"]

theorem progressEvents_all_progress (total : Nat) (e : SseEvent β H)
    (he : e ∈ progressEvents total) : e.isProgress = true := by
  unfold progressEvents at he
  obtain ⟨j, _, hj⟩ := List.mem_filterMap.1 he
  by_cases hc : ((j + 1) % 10 == 0 || (j + 1) == total) = true
  · rw [if_pos hc] at hj
    cases hj
    rfl
  · rw [if_neg hc] at hj
    exact Option.noConfusion hj

theorem progressEvents_total (total : Nat) (e : SseEvent β H)
    (he : e ∈ progressEvents total) :
    ∃ c p, e = .progress c total p := by
  unfold progressEvents at he
  obtain ⟨j, _, hj⟩ := List.mem_filterMap.1 he
  by_cases hc : ((j + 1) % 10 == 0 || (j + 1) == total) = true
  · rw [if_pos hc] at hj
    cases hj
    exact ⟨j + 1, _, rfl⟩
  · rw [if_neg hc] at hj
    exact Option.noConfusion hj

theorem length_filterMap_ite {α γ : Type _} (p : α → Bool) (g : α → γ)
    (l : List α) :
    (l.filterMap (fun a => if p a then some (g a) else none)).length
      = l.countP p := by
  induction l with
  | nil => rfl
  | cons a t ih =>
    by_cases hp : p a = true
    · simp [List.filterMap_cons, List.countP_cons, hp, ih]
    · have hp' : p a = false := by simpa using hp
      simp [List.filterMap_cons, List.countP_cons, hp', ih]

theorem countP_or_le {α : Type _} (p q : α → Bool) (l : List α) :
    l.countP (fun a => p a || q a) ≤ l.countP p + l.countP q := by
  induction l with
  | nil => simp
  | cons a t ih =>
    rw [List.countP_cons, List.countP_cons, List.countP_cons]
    by_cases hp : p a = true <;> by_cases hq : q a = true <;>
      simp [hp, hq] <;> omega

theorem countP_beq_le_one {l : List Nat} (hnd : l.Nodup) (m : Nat) :
    l.countP (fun j => j == m) ≤ 1 := by
  induction l with
  | nil => simp
  | cons a t ih =>
    rw [List.countP_cons]
    have hrest := ih (List.nodup_cons.1 hnd).2
    by_cases ha : a = m
    · subst ha
      have : t.countP (fun j => j == a) = 0 := by
        rw [List.countP_eq_zero]
        intro b hb
        simp only [beq_iff_eq]
        intro hba
        exact (List.nodup_cons.1 hnd).1 (hba ▸ hb)
      simp [this]
    · simp [ha]
      omega

/-- The number of `j ∈ [1..N]` divisible by 10 is `N / 10`. -/
theorem countP_mult10 (N : Nat) :
    (List.range N).countP (fun j => (j + 1) % 10 == 0) = N / 10 := by
  induction N with
  | zero => simp
  | succ n ih =>
    rw [List.range_succ, List.countP_append, ih, List.countP_singleton]
    rw [Nat.succ_div]
    by_cases hd : (n + 1) % 10 = 0
    · have : (10 : Nat) ∣ n + 1 := Nat.dvd_of_mod_eq_zero hd
      simp [hd, this]
    · have hndvd : ¬ (10 : Nat) ∣ n + 1 := by
        intro hdd
        obtain ⟨c, hc⟩ := hdd
        omega
      simp [hd, hndvd]

theorem progressEvents_length_le (N : Nat) :
    (progressEvents (β := β) (H := H) N).length ≤ (N + 9) / 10 := by
  unfold progressEvents
  rw [length_filterMap_ite]
  by_cases hN : N % 10 = 0
  · have hle : (List.range N).countP (fun j => (j + 1) % 10 == 0 || (j + 1) == N)
        ≤ (List.range N).countP (fun j => (j + 1) % 10 == 0) := by
      apply List.countP_mono_left
      intro j hj
      simp only [Bool.or_eq_true, beq_iff_eq]
      rintro (h | h)
      · simpa using h
      · simp [h, hN]
    calc (List.range N).countP (fun j => (j + 1) % 10 == 0 || (j + 1) == N)
        ≤ (List.range N).countP (fun j => (j + 1) % 10 == 0) := hle
      _ = N / 10 := countP_mult10 N
      _ ≤ (N + 9) / 10 := Nat.div_le_div_right (by omega)
  · have h1 := countP_or_le (fun j => (j + 1) % 10 == 0)
      (fun j => (j + 1) == N) (List.range N)
    have h2 := countP_mult10 N
    have h3 : (List.range N).countP (fun j => (j + 1) == N) ≤ 1 := by
      have hcg : (List.range N).countP (fun j => (j + 1) == N)
          = (List.range N).countP (fun j => j == N - 1) := by
        apply List.countP_congr
        intro j hj
        have hjN : j < N := List.mem_range.1 hj
        simp only [beq_iff_eq]
        constructor
        · intro h; omega
        · intro h; omega
      rw [hcg]
      exact countP_beq_le_one (List.nodup_range N) (N - 1)
    have h4 : (N + 9) / 10 = N / 10 + 1 := by omega
    omega

theorem candidateIdsOf_isEmpty_iff (l : List (AppRec β)) :
    (candidateIdsOf l).isEmpty = true ↔ l = [] := by
  cases l <;> simp [candidateIdsOf]

theorem isProgress_not_terminal (e : SseEvent β H)
    (h : e.isProgress = true) : e.isTerminal = false := by
  cases e <;> simp_all [SseEvent.isProgress, SseEvent.isTerminal]

theorem getLast?_cons_or (a : SseEvent β H) (l : List (SseEvent β H)) :
    (a :: l).getLast? = l.getLast?.or (some a) := by
  rw [show a :: l = [a] ++ l from rfl, List.getLast?_append]
  rfl

theorem countP_terminal_progressEvents (N : Nat) :
    (progressEvents (β := β) (H := H) N).countP SseEvent.isTerminal = 0 := by
  rw [List.countP_eq_zero]
  intro e he
  rw [isProgress_not_terminal e (progressEvents_all_progress N e he)]
  simp

theorem filter_progress_progressEvents (N : Nat) :
    (progressEvents (β := β) (H := H) N).filter SseEvent.isProgress
      = progressEvents N :=
  List.filter_eq_self.2 (fun e he => progressEvents_all_progress N e he)

theorem progressEvents_getLast (M : Nat) :
    (progressEvents (β := β) (H := H) (M + 1)).getLast?
      = some (.progress (M + 1) (M + 1) (100 * (M + 1) / (M + 1))) := by
  unfold progressEvents
  rw [List.range_succ, List.filterMap_append]
  have hone : List.filterMap (fun j =>
      if (j + 1) % 10 == 0 || (j + 1) == M + 1 then
        some (SseEvent.progress (β := β) (H := H) (j + 1) (M + 1)
          (100 * (j + 1) / (M + 1)))
      else none) [M]
      = [.progress (M + 1) (M + 1) (100 * (M + 1) / (M + 1))] := by
    simp
  rw [hone, List.getLast?_concat]

/-- The concrete 25-identifier run of the C5 scenario. -/
def app25 : AppRec Unit := ⟨none, some "cand", ()⟩

def apps25 : Envelope (List (AppRec Unit)) :=
  ⟨true, some (List.replicate 25 app25), none, false, none⟩

def lookup25 : Option String → TaskOutcome Unit := fun _ => .ok none

set_option maxRecDepth 8000

/-- C5: in every run, exactly one terminal frame (`complete` or `error`)
is emitted and it is the last frame; in a successful `N`-candidate run
the number of `progress` frames is at most `⌈N / 10⌉` and, when
`N > 0`, the last `progress` frame reports `current = N`.  The concrete
25-identifier scenario emits `progress` frames exactly at
`current = 10, 20, 25` (with `total = 25`) and ends with the single
`complete` frame. -/
theorem c5_progress_event_protocol :
    (∀ (β H : Type) (appsResult : Envelope (List (AppRec β)))
        (stageId : Option String) (lookup : Option String → TaskOutcome H)
        (order : List Nat),
      ((generateEvents appsResult stageId lookup order).countP
          SseEvent.isTerminal = 1 ∧
        (generateEvents appsResult stageId lookup order).getLast?.map
          SseEvent.isTerminal = some true) ∧
      (appsResult.success = true →
        (generateEvents appsResult stageId lookup order).countP
            SseEvent.isProgress
          ≤ ((filteredApps (appsResult.results.getD []) stageId).length + 9) / 10 ∧
        (0 < (filteredApps (appsResult.results.getD []) stageId).length →
          ((generateEvents appsResult stageId lookup order).filter
              SseEvent.isProgress).getLast?.map SseEvent.currentOf
            = some (filteredApps (appsResult.results.getD []) stageId).length))) ∧
    ((generateEvents apps25 none lookup25 (List.range 25)).filter
        SseEvent.isProgress
      = [.progress 10 25 40, .progress 20 25 80, .progress 25 25 100] ∧
      (generateEvents apps25 none lookup25 (List.range 25)).getLast?
        = some (.complete (List.replicate 25 ⟨some "cand", (), none⟩))) := by
  constructor
  · intro β H appsResult stageId lookup order
    by_cases hs : appsResult.success = true
    · by_cases he : (candidateIdsOf
          (filteredApps (appsResult.results.getD []) stageId)).isEmpty = true
      · have hfil : filteredApps (appsResult.results.getD []) stageId = [] :=
          (candidateIdsOf_isEmpty_iff _).1 he
        refine ⟨⟨?_, ?_⟩, fun _ => ⟨?_, fun hpos => ?_⟩⟩
        · simp [generateEvents, hs, he, List.countP_cons, SseEvent.isTerminal]
        · simp [generateEvents, hs, he, SseEvent.isTerminal]
        · simp [generateEvents, hs, he, List.countP_cons, SseEvent.isProgress]
        · rw [hfil] at hpos
          simp at hpos
      · have hshape : generateEvents appsResult stageId lookup order =
            .status "Fetching applications..." ::
            .status ("Found " ++ toString (appsResult.results.getD []).length
                ++ " applications. Filtering by stage...") ::
            .status ("Found " ++ toString
                  (filteredApps (appsResult.results.getD []) stageId).length
                ++ " candidates in selected stage. Fetching resume info...") ::
            (progressEvents
                (filteredApps (appsResult.results.getD []) stageId).length ++
              [.complete (order.foldl
                (completeOne lookup (candidateIdsOf
                  (filteredApps (appsResult.results.getD []) stageId)))
                (baseCandidates
                  (filteredApps (appsResult.results.getD []) stageId)))]) := by
          simp [generateEvents, hs, he]
        refine ⟨⟨?_, ?_⟩, fun _ => ⟨?_, fun hpos => ?_⟩⟩
        · rw [hshape]
          simp only [List.countP_cons, List.countP_append,
            countP_terminal_progressEvents]
          simp [SseEvent.isTerminal, List.countP_cons]
        · rw [hshape, getLast?_cons_or, getLast?_cons_or, getLast?_cons_or,
            List.getLast?_append]
          simp [SseEvent.isTerminal]
        · rw [hshape]
          simp only [List.countP_cons, List.countP_append]
          have hz : ∀ m : String, SseEvent.isProgress
              (SseEvent.status (β := β) (H := H) m) = false := fun _ => rfl
          have hc : SseEvent.isProgress (SseEvent.complete (β := β) (H := H)
              (order.foldl (completeOne lookup (candidateIdsOf
                (filteredApps (appsResult.results.getD []) stageId)))
                (baseCandidates
                  (filteredApps (appsResult.results.getD []) stageId))))
              = false := rfl
          rw [List.countP_eq_length.2
            (fun e he' => progressEvents_all_progress _ e he')]
          simp only [hz, hc]
          simpa using progressEvents_length_le (β := β) (H := H)
            (filteredApps (appsResult.results.getD []) stageId).length
        · rw [hshape]
          obtain ⟨M, hM⟩ : ∃ M,
              (filteredApps (appsResult.results.getD []) stageId).length
                = M + 1 := ⟨_, (Nat.succ_pred_eq_of_pos hpos).symm⟩
          rw [hM]
          have hz : ∀ m : String, SseEvent.isProgress
              (SseEvent.status (β := β) (H := H) m) = false := fun _ => rfl
          have hcp : SseEvent.isProgress (SseEvent.complete (β := β) (H := H)
              (order.foldl (completeOne lookup (candidateIdsOf
                (filteredApps (appsResult.results.getD []) stageId)))
                (baseCandidates
                  (filteredApps (appsResult.results.getD []) stageId))))
              = false := rfl
          simp only [List.filter_cons, List.filter_append, List.filter_nil,
            hz, hcp, Bool.false_eq_true, if_false, List.append_nil]
          rw [filter_progress_progressEvents, progressEvents_getLast]
          rfl
    · have hs' : appsResult.success = false := by
        simpa using hs
      refine ⟨⟨?_, ?_⟩, fun hcontra => absurd hcontra hs⟩
      · simp [generateEvents, hs', List.countP_cons, SseEvent.isTerminal]
      · simp [generateEvents, hs', SseEvent.isTerminal]
  · exact ⟨by decide, by decide⟩

theorem c5_progress_event_protocol_witness :
    (generateEvents apps25 none lookup25 (List.range 25)).countP
        SseEvent.isProgress
      ≤ ((filteredApps (apps25.results.getD []) none).length + 9) / 10 :=
  ((c5_progress_event_protocol.1 Unit Unit apps25 none lookup25
    (List.range 25)).2 rfl).1

/-- C9: when the stage filter leaves no application, the stream is the
three status frames followed by a single `complete` frame carrying the
empty candidate list — no `progress` frame is emitted; moreover, in
every run, any `progress` frame has `total > 0` (so the
`completed_count / total_candidates` division is never a division by
zero), and `total_candidates` always equals the length of
`candidate_ids`. -/
theorem c9_empty_run_and_no_div_by_zero :
    (∀ (β H : Type) (appsResult : Envelope (List (AppRec β)))
        (stageId : Option String) (lookup : Option String → TaskOutcome H)
        (order : List Nat),
      (appsResult.success = true →
        filteredApps (appsResult.results.getD []) stageId = [] →
        generateEvents appsResult stageId lookup order =
          [.status "Fetching applications...",
           .status ("Found " ++ toString (appsResult.results.getD []).length
              ++ " applications. Filtering by stage..."),
           .status "Found 0 candidates in selected stage. Fetching resume info...",
           .complete []]) ∧
      (∀ c t p, SseEvent.progress (β := β) (H := H) c t p ∈
          generateEvents appsResult stageId lookup order → 0 < t ∧
          t = (candidateIdsOf
            (filteredApps (appsResult.results.getD []) stageId)).length)) ∧
    (∀ (β : Type) (l : List (AppRec β)),
      (candidateIdsOf l).length = l.length) := by
  refine ⟨?_, ?_⟩
  · intro β H appsResult stageId lookup order
    constructor
    · intro hs hfil
      unfold generateEvents
      rw [hfil, hs]
      simp only [candidateIdsOf, baseCandidates, List.map_nil,
        List.length_nil, if_true]
      rfl
    · intro c t p hmem
      by_cases hs : appsResult.success = true
      · by_cases he : (candidateIdsOf
            (filteredApps (appsResult.results.getD []) stageId)).isEmpty = true
        · simp [generateEvents, hs, he] at hmem
        · have hshape9 : generateEvents appsResult stageId lookup order =
              .status "Fetching applications..." ::
              .status ("Found " ++ toString (appsResult.results.getD []).length
                  ++ " applications. Filtering by stage...") ::
              .status ("Found " ++ toString
                    (filteredApps (appsResult.results.getD []) stageId).length
                  ++ " candidates in selected stage. Fetching resume info...") ::
              (progressEvents
                  (filteredApps (appsResult.results.getD []) stageId).length ++
                [.complete (order.foldl
                  (completeOne lookup (candidateIdsOf
                    (filteredApps (appsResult.results.getD []) stageId)))
                  (baseCandidates
                    (filteredApps (appsResult.results.getD []) stageId)))]) := by
            simp [generateEvents, hs, he]
          rw [hshape9] at hmem
          simp only [List.mem_cons, List.mem_append, List.mem_singleton] at hmem
          rcases hmem with h | h | h | h | h
          · exact absurd h (by simp)
          · exact absurd h (by simp)
          · exact absurd h (by simp)
          · obtain ⟨c', p', hpe⟩ := progressEvents_total _ _ h
            simp only [SseEvent.progress.injEq] at hpe
            have ht : t = (filteredApps
                (appsResult.results.getD []) stageId).length := hpe.2.1
            have hne : filteredApps (appsResult.results.getD []) stageId ≠ [] := by
              intro hnil
              exact he ((candidateIdsOf_isEmpty_iff _).2 hnil)
            have hpos : 0 < (filteredApps
                (appsResult.results.getD []) stageId).length :=
              List.length_pos.2 hne
            constructor
            · omega
            · rw [ht]
              simp [candidateIdsOf]
          · exact absurd h (by simp)
      · have hs' : appsResult.success = false := by simpa using hs
        simp [generateEvents, hs'] at hmem
  · intro β l
    simp [candidateIdsOf]

/-- A one-application input whose stage filter removes everything. -/
def appOther : AppRec Unit := ⟨some "stage-x", some "cand", ()⟩

def appsOne : Envelope (List (AppRec Unit)) :=
  ⟨true, some [appOther], none, false, none⟩

theorem c9_empty_run_and_no_div_by_zero_witness :
    generateEvents appsOne (some "stage-y") lookup25 [] =
      [.status "Fetching applications...",
       .status "Found 1 applications. Filtering by stage...",
       .status "Found 0 candidates in selected stage. Fetching resume info...",
       .complete []] :=
  ((c9_empty_run_and_no_div_by_zero.1 Unit Unit appsOne (some "stage-y")
    lookup25 []).1 rfl (by rfl))

/-! ### Batch document assembler (`combine_pdfs`, lines 389-477) -/

/-- One entry of the uploaded ZIP: its (full) name, whether `zf.read`
succeeds on it, and the `PdfReader` outcome on its bytes — `none` when
parsing raises, otherwise the list of pages. -/
structure ZipEntry (P : Type) where
  name : String
  readOk : Bool
  parse : Option (List P)
deriving DecidableEq

/-- The result of the endpoint: a 400-style caller-facing error, or the
output ZIP as a list of (entry name, merged page list) pairs. -/
inductive CombineResult (P : Type) where
  | err (msg : String)
  | ok (files : List (String × List P))
deriving DecidableEq

/-- ASCII lower-casing of one character (`str.lower` on the name
alphabet). -/
def asciiLower (c : Char) : Char :=
  if c.toNat ≥ 65 && c.toNat ≤ 90 then Char.ofNat (c.toNat + 32) else c

/-- Code-point lexicographic order on strings (as character lists) —
the order `sorted` uses on names. -/
def charListLe : List Char → List Char → Bool
  | [], _ => true
  | _ :: _, [] => false
  | a :: as, b :: bs =>
    if a.toNat = b.toNat then charListLe as bs else a.toNat < b.toNat

/-- The name filter of the ZIP listing:
`name.lower().endswith('.pdf') and not name.startswith('__MACOSX')`,
over the name's character list. -/
def pdfNameFilter (name : String) : Bool :=
  ".pdf".data.isSuffixOf (name.data.map asciiLower)
    && !("__MACOSX".data.isPrefixOf name.data)

/-- `sorted([...])` over the filtered names: the matching entries in
byte-order of their names (stable insertion sort, extensionally the
sort the source performs). -/
def sortedPdfEntries (entries : List (ZipEntry P)) : List (ZipEntry P) :=
  (entries.filter (fun e => pdfNameFilter e.name)).insertionSort
    (fun a b => charListLe a.name.data b.name.data = true)

/-- Python's `'combined_{:03d}'.format(i)` zero padding. -/
def zeroPad3 (n : Nat) : String :=
  String.mk (List.replicate (3 - (toString n).length) '0') ++ toString n

def combinedName (i : Nat) : String :=
  "combined_" ++ zeroPad3 i ++ ".pdf"

/-- The pages a source document contributes to its batch: a document
whose parse raises is skipped and contributes none. -/
def pagesOf (e : ZipEntry P) : List P :=
  e.parse.getD []

/-- `combine_pdfs`: filter and sort the ZIP names, keep the readable
entries, reject empty survivor sets, then cut `ceil(n / per)` batches
`files[i*per : min((i+1)*per, n)]` and merge each batch's pages in
order into `combined_NNN.pdf`. -/
def combine_pdfs (entries : List (ZipEntry P)) (pdfsPerFile : Nat) :
    CombineResult P :=
  if pdfsPerFile < 1 then .err "PDFs per file must be at least 1"
  else
    if (sortedPdfEntries entries).length = 0 then
      .err "No PDF files found in the ZIP"
    else
      if ((sortedPdfEntries entries).filter (fun e => e.readOk)).length = 0 then
        .err "Could not read any PDF files from the ZIP"
      else
        .ok ((List.range
            ((((sortedPdfEntries entries).filter (fun e => e.readOk)).length
              + pdfsPerFile - 1) / pdfsPerFile)).map (fun i =>
          (combinedName (i + 1),
            (((((sortedPdfEntries entries).filter (fun e => e.readOk)).drop
              (i * pdfsPerFile)).take pdfsPerFile).map pagesOf).flatten)))

/-- The C2 counterexample entry: a matching name that reads fine but
whose bytes fail PDF parsing. -/
def c2Entry : ZipEntry Nat := ⟨"a.pdf", true, none⟩

/-- C2 counterexample: with a single readable but unparsable document,
zero documents survive successful parsing, yet `combine_pdfs` does not
fail — it returns a success whose only output document is empty
(`combined_001.pdf` with no pages), i.e. an all-empty output set. -/
theorem c2_all_unparsable_not_an_error_cex :
    combine_pdfs [c2Entry] 1 =
        .ok [("combined_001.pdf", ([] : List Nat))] ∧
      c2Entry.parse = none :=
  ⟨by decide, rfl⟩

/-- C2 (amended): the operation fails with a caller-facing error when
zero documents survive the extension filter, or when zero of the
filtered documents can be read from the archive; a read document whose
PDF parse fails is merely skipped (its batch document may come out
empty), so on success the output list itself is never empty, but it may
consist of empty documents (`c2_all_unparsable_not_an_error_cex`). -/
theorem c2_empty_survivor_sets_fail (entries : List (ZipEntry P))
    (per : Nat) (hper : 1 ≤ per) :
    (sortedPdfEntries entries = [] →
      combine_pdfs entries per = .err "No PDF files found in the ZIP") ∧
    (sortedPdfEntries entries ≠ [] →
      (sortedPdfEntries entries).filter (fun e => e.readOk) = [] →
      combine_pdfs entries per = .err "Could not read any PDF files from the ZIP") ∧
    (∀ files, combine_pdfs entries per = .ok files → files ≠ []) := by
  refine ⟨?_, ?_, ?_⟩
  · intro hnil
    unfold combine_pdfs
    rw [if_neg (by omega), hnil]
    simp
  · intro hne hnil
    unfold combine_pdfs
    rw [if_neg (by omega), if_neg (by
      simp only [List.length_eq_zero]
      exact hne), hnil]
    simp
  · intro files hok
    unfold combine_pdfs at hok
    by_cases h1 : per < 1
    · rw [if_pos h1] at hok
      exact absurd hok (by simp)
    · rw [if_neg h1] at hok
      by_cases h2 : (sortedPdfEntries entries).length = 0
      · rw [if_pos h2] at hok
        exact absurd hok (by simp)
      · rw [if_neg h2] at hok
        by_cases h3 : ((sortedPdfEntries entries).filter
            (fun e => e.readOk)).length = 0
        · rw [if_pos h3] at hok
          exact absurd hok (by simp)
        · rw [if_neg h3] at hok
          injection hok with hfe
          subst hfe
          intro hcontra
          rw [List.map_eq_nil_iff, List.range_eq_nil] at hcontra
          have hlen : 0 < ((sortedPdfEntries entries).filter
              (fun e => e.readOk)).length := by omega
          have : 0 < (((sortedPdfEntries entries).filter
              (fun e => e.readOk)).length + per - 1) / per :=
            Nat.div_pos (by omega) (by omega)
          omega

theorem c2_empty_survivor_sets_fail_witness :
    combine_pdfs ([] : List (ZipEntry Nat)) 10 =
      .err "No PDF files found in the ZIP" :=
  (c2_empty_survivor_sets_fail ([] : List (ZipEntry Nat)) 10
    (by decide)).1 (by decide)

/-- C4 core: when every filtered document is readable (so the batched
list is exactly the filtered-and-sorted input) and at least one
survives, the output is exactly one merged document per batch. -/
theorem combine_pdfs_ok (entries : List (ZipEntry P)) (per : Nat)
    (hper : 1 ≤ per)
    (hread : ∀ e ∈ sortedPdfEntries entries, e.readOk = true)
    (hne : 0 < (sortedPdfEntries entries).length) :
    combine_pdfs entries per =
      .ok ((List.range
          (((sortedPdfEntries entries).length + per - 1) / per)).map (fun i =>
        (combinedName (i + 1),
          ((((sortedPdfEntries entries).drop (i * per)).take per).map
            pagesOf).flatten))) := by
  have hfe : (sortedPdfEntries entries).filter (fun e => e.readOk)
      = sortedPdfEntries entries :=
    List.filter_eq_self.2 (fun e he => by simpa using hread e he)
  unfold combine_pdfs
  rw [if_neg (by omega), if_neg (by omega), hfe, if_neg (by omega)]

/-- The 23-document scenario input: 23 readable one-page documents with
already-sorted names. -/
def entries23 : List (ZipEntry Nat) :=
  (List.range 23).map (fun i => ⟨"doc" ++ zeroPad3 (i + 1) ++ ".pdf", true, some [i]⟩)

/-- The names of the output documents. -/
def resultNames (r : CombineResult P) : List String :=
  match r with
  | .err _ => []
  | .ok files => files.map (fun f => f.1)

/-- The total page count across the output documents. -/
def resultPageCount (r : CombineResult P) : Nat :=
  match r with
  | .err _ => 0
  | .ok files => (files.map (fun f => f.2.length)).sum

/-- C4: for `batchSize ≥ 1`, when all filtered documents are readable
and at least one survives the filter, the assembler emits exactly
`ceil(count / batchSize)` output documents; output `i` (0-indexed) is
the in-order merge of the filtered, metadata-prefix-excluded,
name-sorted source documents at indices
`[i*batchSize, min((i+1)*batchSize, count))` (`drop`/`take` below), and
is named `combined_NNN` with `NNN = i + 1` zero-padded to 3 digits (the
code appends the document extension to the entry name).  The concrete
23-document scenario with `batchSize = 10` yields exactly
`combined_001.pdf`, `combined_002.pdf`, `combined_003.pdf` carrying all
23 pages. -/
theorem c4_batch_partition_and_naming :
    (∀ (P : Type) (entries : List (ZipEntry P)) (per : Nat), 1 ≤ per →
      (∀ e ∈ sortedPdfEntries entries, e.readOk = true) →
      0 < (sortedPdfEntries entries).length →
      combine_pdfs entries per =
        .ok ((List.range
            (((sortedPdfEntries entries).length + per - 1) / per)).map (fun i =>
          (combinedName (i + 1),
            ((((sortedPdfEntries entries).drop (i * per)).take per).map
              pagesOf).flatten)))) ∧
    (resultNames (combine_pdfs entries23 10)
        = ["combined_001.pdf", "combined_002.pdf", "combined_003.pdf"] ∧
      resultPageCount (combine_pdfs entries23 10) = 23) := by
  refine ⟨fun P entries per hper hread hne =>
    combine_pdfs_ok entries per hper hread hne, by decide, by decide⟩

theorem c4_batch_partition_and_naming_witness :
    combine_pdfs entries23 10 =
      .ok ((List.range (((sortedPdfEntries entries23).length + 10 - 1) / 10)).map
        (fun i => (combinedName (i + 1),
          ((((sortedPdfEntries entries23).drop (i * 10)).take 10).map
            pagesOf).flatten))) :=
  c4_batch_partition_and_naming.1 Nat entries23 10 (by decide) (by decide)
    (by decide)

/-! ### `fetch_candidate_resume_handle` (lines 195-205) -/

/-- The nested `resumeFileHandle` object (its `handle` key may be
absent). -/
structure ResumeHandleObj (H : Type) where
  handle : Option H
deriving DecidableEq

/-- The `results` object of `candidate.info`: `resumeFileHandle` is
`none` when the key is absent or its value falsy. -/
structure CandidateInfo (H : Type) where
  resumeFileHandle : Option (ResumeHandleObj H)
deriving DecidableEq

/-- `fetch_candidate_resume_handle(candidate_id)`: returns the optional
handle plus whether an upstream `candidate.info` call was issued.  A
falsy id returns `None` immediately; otherwise the envelope must be
successful and carry a `resumeFileHandle` object, whose `handle` field
is returned; every other shape yields `None`. -/
def fetch_candidate_resume_handle
    (upstream : String → Envelope (CandidateInfo H))
    (candidate_id : Option String) : Option H × Bool :=
  match candidate_id with
  | none => (none, false)
  | some s =>
    if s = "" then (none, false)
    else
      if (upstream s).success then
        match ((upstream s).results.getD ⟨none⟩).resumeFileHandle with
        | some obj => (obj.handle, true)
        | none => (none, true)
      else (none, true)

/-- C10: the lookup is `Option`-valued and total at its interface: a
missing or empty candidate id yields `None` with no upstream call; with
a real id exactly one upstream call is made, and the result is the
`handle` field of the envelope's `resumeFileHandle` object when the
envelope is successful and carries one, and `None` in every other case
(failure envelope, or no `resumeFileHandle`). -/
theorem c10_resume_handle_total (upstream : String → Envelope (CandidateInfo H)) :
    (fetch_candidate_resume_handle upstream none = (none, false) ∧
      fetch_candidate_resume_handle upstream (some "") = (none, false)) ∧
    (∀ s obj, s ≠ "" → (upstream s).success = true →
      ((upstream s).results.getD ⟨none⟩).resumeFileHandle = some obj →
      fetch_candidate_resume_handle upstream (some s) = (obj.handle, true)) ∧
    (∀ s, s ≠ "" → (upstream s).success = true →
      ((upstream s).results.getD ⟨none⟩).resumeFileHandle = none →
      fetch_candidate_resume_handle upstream (some s) = (none, true)) ∧
    (∀ s, s ≠ "" → (upstream s).success = false →
      fetch_candidate_resume_handle upstream (some s) = (none, true)) := by
  refine ⟨⟨rfl, rfl⟩, ?_, ?_, ?_⟩
  · intro s obj hs hsu hrf
    simp [fetch_candidate_resume_handle, hs, hsu, hrf]
  · intro s hs hsu hrf
    simp [fetch_candidate_resume_handle, hs, hsu, hrf]
  · intro s hs hsu
    simp [fetch_candidate_resume_handle, hs, hsu]

/-- A concrete candidate-info upstream for the C10 witness. -/
def candUp : String → Envelope (CandidateInfo Nat)
  | _ => ⟨true, some ⟨some ⟨some 42⟩⟩, none, false, none⟩

theorem c10_resume_handle_total_witness :
    fetch_candidate_resume_handle candUp (some "cand-1") = (some 42, true) :=
  (c10_resume_handle_total candUp).2.1 "cand-1" ⟨some 42⟩ (by decide) rfl rfl

end AshbyTool
